import Mathlib

/-!
Shallow embedding of `src/data_collection/fetch_erate_data.py`
(`ERateDataCollector`) from the erate-prospector repository.

Pandas DataFrames are modelled as a `Table`: an ordered column-name list
together with row-major cell lists.  JSON records returned by the API are
association lists (`Row`).  The HTTP layer is an oracle function from the
request parameters to a result (network failure or a status code plus a
parsed JSON body); the unbounded `while True` pagination loop takes an
explicit fuel argument.  Numbers are modelled as `Rat` (the claims under
study do not depend on float rounding).
-/

namespace ERate

/-- A cell value: a string, a number, or null/NaN. -/
inductive Value where
  | str (s : String)
  | num (q : Rat)
  | null
deriving DecidableEq

/-- One JSON record (a Python dict): an association list from field name to value. -/
abbrev Row := List (String × Value)

/-- A pandas DataFrame: ordered column names plus row-major cells. -/
structure Table where
  cols : List String
  rows : List (List Value)
deriving DecidableEq

/-- Index of the first occurrence of a column name in a column list. -/
def colIdx : List String → String → Option Nat
  | [], _ => none
  | c0 :: rest, c => if c0 = c then some 0 else (colIdx rest c).map (· + 1)

/-- The pandas `df.empty` test: true when the frame has no rows or no columns. -/
def Table.isEmptyDf (t : Table) : Bool :=
  t.rows.isEmpty || t.cols.isEmpty

/-- Lookup of a field in a record, null when absent. -/
def rowLookup : Row → String → Value
  | [], _ => Value.null
  | (k0, v) :: rest, k => if k0 = k then v else rowLookup rest k

/-- Append the keys of one record to an accumulated column list, keeping
first-appearance order and skipping keys already present. -/
def addKeys (acc : List String) : List String → List String
  | [] => acc
  | k :: ks => addKeys (if k ∈ acc then acc else acc ++ [k]) ks

/-- Union of the keys of a record list in first-appearance order: the column
set `pd.DataFrame(list_of_dicts)` derives. -/
def unionKeys (rows : List Row) : List String :=
  rows.foldl (fun acc r => addKeys acc (r.map Prod.fst)) []

/-- `pd.DataFrame(data)` on a parsed JSON array of objects: columns are the
union of the record keys in first-appearance order; each record becomes one
row aligned to those columns, with missing fields null. -/
def mkDataFrame (data : List Row) : Table :=
  let cols := unionKeys data
  ⟨cols, data.map (fun r => cols.map (fun c => rowLookup r c))⟩

/-- Read the cell of a row (given the column list it is aligned to) at a
named column, null when the column is absent. -/
def rowVal (cols : List String) (r : List Value) (c : String) : Value :=
  match colIdx cols c with
  | some i => r.getD i Value.null
  | none => Value.null

/-- `pd.concat(all_data, ignore_index=True)`: union of the column sets in
first-appearance order, rows appended in list order and re-aligned, missing
cells null.  The source only calls concat on a non-empty list (`if all_data:`);
the empty case models the `pd.DataFrame()` fallback of the else-branch. -/
def concatTables (ts : List Table) : Table :=
  match ts with
  | [] => ⟨[], []⟩
  | _ =>
    let cols := ts.foldl (fun acc t => addKeys acc t.cols) []
    ⟨cols, (ts.map (fun t => t.rows.map (fun r => cols.map (fun c => rowVal t.cols r c)))).flatten⟩

/-! ## Numeric coercion (`pd.to_numeric(…, errors="coerce")`) -/

/-- A single-quote character, used when quoting string filter values. -/
def sq : String := String.singleton (Char.ofNat 39)

/-- The query parameters of one `session.get` call: `$limit`, `$offset`,
`$order` and the optional `$where`. -/
structure FetchParams where
  limit : Int
  offset : Int
  order : String
  whereClause : Option String
deriving DecidableEq

/-- The `where_clauses` list built in `fetch_data`: Python truthiness drops
`None`, a zero year, and empty strings. -/
def where_clauses (funding_year : Option Int) (state applicant_type : Option String) :
    List String :=
  (match funding_year with
   | some y => if y = 0 then [] else ["funding_year = " ++ toString y]
   | none => []) ++
  (match state with
   | some s => if s = "" then [] else ["state = " ++ sq ++ s ++ sq]
   | none => []) ++
  (match applicant_type with
   | some a => if a = "" then [] else ["applicant_type = " ++ sq ++ a ++ sq]
   | none => [])

/-- The `params` dictionary sent by `fetch_data`: `$where` is present
exactly when the clause list is non-empty, joined with " AND ". -/
def buildParams (funding_year : Option Int) (state applicant_type : Option String)
    (limit offset : Int) : FetchParams :=
  let wc := where_clauses funding_year state applicant_type
  ⟨limit, offset, "funding_year DESC",
   if wc.isEmpty then none else some (String.intercalate " AND " wc)⟩

/-- Outcome of one HTTP GET: a network-level failure, or a response with a
status code and a parsed JSON array body. -/
inductive HttpResult where
  | netError
  | response (status : Nat) (body : List Row)

/-- The body of a response, empty for a network failure. -/
def bodyOf : HttpResult → List Row
  | HttpResult.netError => []
  | HttpResult.response _ b => b

/-- The `requests.exceptions.RequestException` raised out of `fetch_data`. -/
inductive RequestError where
  | connectionError
  | httpError (status : Nat)
deriving DecidableEq

/-- `Response.raise_for_status()` of the requests library: raises exactly
for 4xx and 5xx status codes. -/
def raiseForStatus (status : Nat) : Bool :=
  decide (400 ≤ status) && decide (status < 600)

/-- `fetch_data`: builds the parameters, issues one GET against the
oracle `api`, raises on network failure or an error status, and otherwise
returns `pd.DataFrame(response.json())`. -/
def fetch_data (api : FetchParams → HttpResult) (funding_year : Option Int)
    (state applicant_type : Option String) (limit offset : Int) :
    Except RequestError Table :=
  match api (buildParams funding_year state applicant_type limit offset) with
  | HttpResult.netError => Except.error RequestError.connectionError
  | HttpResult.response status body =>
    if raiseForStatus status then Except.error (RequestError.httpError status)
    else Except.ok (mkDataFrame body)

/-- The HTTP requests one `fetch_data` call issues: exactly one
`session.get`, with no internal retry loop in the source. -/
def fetch_data_requests (funding_year : Option Int) (state applicant_type : Option String)
    (limit offset : Int) : List FetchParams :=
  [buildParams funding_year state applicant_type limit offset]

/-! ## The pagination loop (`fetch_all_years`) -/

/-- The inner `while True` loop of `fetch_all_years` for one funding year,
with explicit fuel bounding the unbounded iteration.  Returns the offsets of
the requests it issued together with the collected page tables (or the first
raised error, which propagates: the loop has no try/except). -/
def fetchYearLoop (api : FetchParams → HttpResult) (year : Int)
    (state applicant_type : Option String) (batch_size : Int) :
    Nat → Int → List Int × Except RequestError (List Table)
  | 0, _ => ([], Except.ok [])
  | fuel + 1, offset =>
    match fetch_data api (some year) state applicant_type batch_size offset with
    | Except.error e => ([offset], Except.error e)
    | Except.ok df =>
      if df.isEmptyDf then ([offset], Except.ok [])
      else if (df.rows.length : Int) < batch_size then ([offset], Except.ok [df])
      else
        match fetchYearLoop api year state applicant_type batch_size fuel (offset + batch_size) with
        | (offs, Except.error e) => (offset :: offs, Except.error e)
        | (offs, Except.ok rest) => (offset :: offs, Except.ok (df :: rest))

/-- The offsets at which the loop for one year issues page requests
(always starting at offset 0, as in the source). -/
def yearRequestOffsets (api : FetchParams → HttpResult) (year : Int)
    (state applicant_type : Option String) (batch_size : Int) (fuel : Nat) : List Int :=
  (fetchYearLoop api year state applicant_type batch_size fuel 0).1

/-- The outer `for year in range(start_year, end_year + 1)` loop, over an
explicit list of years.  Accumulates the issued (year, offset) requests and
the collected batches; an error from any page propagates immediately. -/
def runYears (api : FetchParams → HttpResult) (state applicant_type : Option String)
    (batch_size : Int) (fuel : Nat) :
    List Int → List (Int × Int) × Except RequestError (List Table)
  | [] => ([], Except.ok [])
  | y :: ys =>
    match fetchYearLoop api y state applicant_type batch_size fuel 0 with
    | (offs, Except.error e) => (offs.map (fun o => (y, o)), Except.error e)
    | (offs, Except.ok tabs) =>
      match runYears api state applicant_type batch_size fuel ys with
      | (reqs, Except.error e) => (offs.map (fun o => (y, o)) ++ reqs, Except.error e)
      | (reqs, Except.ok tabs2) => (offs.map (fun o => (y, o)) ++ reqs, Except.ok (tabs ++ tabs2))

/-- Python `range(a, b)` as a list of integers. -/
def pyRange (a b : Int) : List Int :=
  (List.range (b - a).toNat).map (fun i : Nat => a + (i : Int))

/-- `fetch_all_years`: pages through every year in
`range(start_year, end_year + 1)` and concatenates all collected batches
(`pd.concat(all_data, ignore_index=True)` when any batch was collected, the
empty frame otherwise).  Also returns the (year, offset) requests issued. -/
def fetch_all_years (api : FetchParams → HttpResult) (start_year end_year : Int)
    (state applicant_type : Option String) (batch_size : Int) (fuel : Nat) :
    List (Int × Int) × Except RequestError Table :=
  match runYears api state applicant_type batch_size fuel (pyRange start_year (end_year + 1)) with
  | (reqs, Except.error e) => (reqs, Except.error e)
  | (reqs, Except.ok tabs) => (reqs, Except.ok (concatTables tabs))

/-! ## Persistence (`save_data`) -/

/-- `os.path.dirname`: everything before the final slash, with trailing
slashes stripped from the head unless the head is all slashes. -/
def pyDirname (s : String) : String :=
  let rev := s.toList.reverse
  let headRev := rev.dropWhile (fun c => decide (c ≠ '/'))
  let stripped := headRev.dropWhile (fun c => decide (c = '/'))
  if stripped.isEmpty then String.mk headRev.reverse else String.mk stripped.reverse

/-- The error class raised by the OS layer. -/
inductive OsError where
  | fileNotFound
deriving DecidableEq

/-- `os.makedirs(d, exist_ok=True)` on a writable filesystem: succeeds for
any non-empty directory path, but raises FileNotFoundError when handed the
empty string (as `os.path.dirname` yields for a bare filename). -/
def os_makedirs (d : String) : Except OsError Unit :=
  if d = "" then Except.error OsError.fileNotFound else Except.ok ()

/-- A written CSV file, modelled at cell level: the header row and the data
rows (textual encoding of the cells is abstracted). -/
structure CsvFile where
  header : List String
  body : List (List Value)
deriving DecidableEq

/-- `df.to_csv(path, index=False)`: header row is the column names in
order; with `index=True` pandas would prepend an index column. -/
def to_csv (df : Table) (index : Bool) : CsvFile :=
  if index then
    ⟨"" :: df.cols, (List.range df.rows.length).zipWith (fun i r => Value.num (i : Rat) :: r) df.rows⟩
  else ⟨df.cols, df.rows⟩

/-- `save_data`: creates the parent directory of the output path, then
writes the CSV.  On success returns the directory passed to `os.makedirs`
and the written file; an OS error propagates and nothing is written. -/
def save_data (df : Table) (output_path : String) : Except OsError (String × CsvFile) :=
  match os_makedirs (pyDirname output_path) with
  | Except.error e => Except.error e
  | Except.ok _ => Except.ok (pyDirname output_path, to_csv df false)

/-! ## Spec-side definitions and concrete fixtures -/

/-- Spec-side clause list, following the spec's words: one `field = value`
clause per supplied filter, string values single-quoted, numeric values
unquoted.  Compared against the `where_clauses` the source builds. -/
def specWhereClauses (funding_year : Option Int) (state applicant_type : Option String) :
    List String :=
  funding_year.toList.map (fun y => "funding_year = " ++ toString y) ++
  state.toList.map (fun s => "state = " ++ sq ++ s ++ sq) ++
  applicant_type.toList.map (fun a => "applicant_type = " ++ sq ++ a ++ sq)

/-- Decidable equality of `Except` results, so witnesses can be checked by
evaluation. -/
def exceptDecEq {ε α : Type} [DecidableEq ε] [DecidableEq α] :
    DecidableEq (Except ε α)
  | Except.error e, Except.error f =>
    if h : e = f then isTrue (congrArg Except.error h)
    else isFalse (fun hc => h (Except.error.inj hc))
  | Except.error _, Except.ok _ => isFalse (fun hc => Except.noConfusion hc)
  | Except.ok _, Except.error _ => isFalse (fun hc => Except.noConfusion hc)
  | Except.ok x, Except.ok y =>
    if h : x = y then isTrue (congrArg Except.ok h)
    else isFalse (fun hc => h (Except.ok.inj hc))

instance {ε α : Type} [DecidableEq ε] [DecidableEq α] : DecidableEq (Except ε α) :=
  exceptDecEq

/-- A page function for concrete pagination runs: with page size 2, a full
page at offset 0 and a short page at offset 2. -/
def wPage (o : Int) : List Row :=
  if o = 0 then [[("a", Value.num 1)], [("a", Value.num 2)]]
  else if o = 2 then [[("a", Value.num 3)]]
  else []

/-- An always-successful oracle serving `wPage`. -/
def wApi : FetchParams → HttpResult :=
  fun p => HttpResult.response 200 (wPage p.offset)

/-- An oracle like `wApi` except that the request at offset 2 fails with a
server error. -/
def wApiFail : FetchParams → HttpResult :=
  fun p => if p.offset = 2 then HttpResult.response 500 [] else HttpResult.response 200 (wPage p.offset)

/-- An oracle whose pages carry varying schemas: the full page at offset 0
has only field "a", the short page at offset 2 only field "b". -/
def wApiMixed : FetchParams → HttpResult := fun p =>
  HttpResult.response 200
    (if p.offset = 0 then [[("a", Value.num 1)], [("a", Value.num 2)]]
     else if p.offset = 2 then [[("b", Value.num 3)]] else [])

/-- An oracle returning a single page holding one field-less record `{}`. -/
def emptyRecApi : FetchParams → HttpResult := fun _ => HttpResult.response 200 [[]]

/-- Whether an HTTP outcome makes `fetch_data` raise: a network failure or
an error status caught by `raise_for_status`. -/
def isFailB : HttpResult → Bool
  | HttpResult.netError => true
  | HttpResult.response s _ => raiseForStatus s

/-- The parameters `fetch_all_years` sends for one (year, offset) request. -/
def reqParams (state applicant_type : Option String) (batch_size : Int) (yo : Int × Int) :
    FetchParams :=
  buildParams (some yo.1) state applicant_type batch_size yo.2

/-- The concatenation, in issued-request order, of the response bodies of a
request list: the reference value for the order-preservation invariant. -/
def concatInOrder (api : FetchParams → HttpResult) (state applicant_type : Option String)
    (batch_size : Int) (reqs : List (Int × Int)) : List Row :=
  reqs.flatMap (fun yo => bodyOf (api (reqParams state applicant_type batch_size yo)))

/-- The rows of a table viewed as field-valuation functions: row i maps each
column name to its cell (null when the name is not a column).  This is the
representation-independent reading of a row — alignment to a wider or
narrower column set leaves it unchanged. -/
def rowFuns (t : Table) : List (String → Value) :=
  t.rows.map (fun r => fun c => rowVal t.cols r c)

/-- The records of a response body viewed as field-valuation functions. -/
def recFuns (rs : List Row) : List (String → Value) :=
  rs.map (fun r => fun c => rowLookup r c)

/-- The C3 pagination contract for the per-year loop: requests are issued at
offsets 0, b, 2b, …; every non-final request got a successful, non-short
page; and every request's offset stays within the end of the previously
fetched page. -/
def paginationOk (api : FetchParams → HttpResult) (year : Int)
    (state applicant_type : Option String) (batch_size : Int) (fuel : Nat) : Prop :=
  (∀ i (h : i < (yearRequestOffsets api year state applicant_type batch_size fuel).length),
    (yearRequestOffsets api year state applicant_type batch_size fuel).get ⟨i, h⟩ =
      (i : Int) * batch_size) ∧
  (∀ i, i + 1 < (yearRequestOffsets api year state applicant_type batch_size fuel).length →
    ∃ df, fetch_data api (some year) state applicant_type batch_size ((i : Int) * batch_size) =
        Except.ok df ∧
      df.isEmptyDf = false ∧ batch_size ≤ (df.rows.length : Int)) ∧
  (∀ i (h : i + 1 < (yearRequestOffsets api year state applicant_type batch_size fuel).length)
    (h2 : i < (yearRequestOffsets api year state applicant_type batch_size fuel).length)
    (df : Table),
    fetch_data api (some year) state applicant_type batch_size
        ((yearRequestOffsets api year state applicant_type batch_size fuel).get ⟨i, h2⟩) =
      Except.ok df →
    (yearRequestOffsets api year state applicant_type batch_size fuel).get ⟨i + 1, h⟩ ≤
      (yearRequestOffsets api year state applicant_type batch_size fuel).get ⟨i, h2⟩ +
        (df.rows.length : Int))

/-! # Theorems -/

/-! ## List-level helper lemmas -/

/-- C9 (confirmed): passing `funding_year = 0`, `state = ""` or
`applicant_type = ""` to `fetch_data` produces exactly the request — and
hence the behavior — of not supplying that filter at all: Python truthiness
drops the clause silently. -/
theorem falsy_filters_dropped (fy : Option Int) (st app : Option String) (l o : Int)
    (api : FetchParams → HttpResult) :
    buildParams (some 0) st app l o = buildParams none st app l o ∧
    buildParams fy (some "") app l o = buildParams fy none app l o ∧
    buildParams fy st (some "") l o = buildParams fy st none l o ∧
    fetch_data api (some 0) st app l o = fetch_data api none st app l o ∧
    fetch_data api fy (some "") app l o = fetch_data api fy none app l o ∧
    fetch_data api fy st (some "") l o = fetch_data api fy st none l o := by
  have h1 : buildParams (some 0) st app l o = buildParams none st app l o := by
    simp [buildParams, where_clauses]
  have h2 : buildParams fy (some "") app l o = buildParams fy none app l o := by
    simp [buildParams, where_clauses]
  have h3 : buildParams fy st (some "") l o = buildParams fy st none l o := by
    simp [buildParams, where_clauses]
  refine ⟨h1, h2, h3, ?_, ?_, ?_⟩ <;> unfold fetch_data
  · rw [h1]
  · rw [h2]
  · rw [h3]

/-! ## Claim C2: the $where expression for supplied filters -/

/-- C2 (counterexample): the filter set `{funding_year: 0}` is non-empty,
yet the request carries no $where parameter at all — no
`funding_year = 0` clause is built, refuting one-clause-per-supplied-filter
as stated. -/
theorem where_drops_zero_year :
    (buildParams (some 0) none none 1000 0).whereClause = none ∧
    specWhereClauses (some 0) none none = ["funding_year = 0"] := by
  constructor
  · rfl
  · rfl

/-- C2 (amended): for every filter set whose supplied values are truthy
(year nonzero, strings non-empty), the clause list the source builds is
exactly one `field = value` clause per supplied filter — string values
single-quoted, numeric values unquoted — and $where is their " AND " join;
with no filter supplied, no $where parameter is sent. -/
theorem where_clause_truthy_filters (fy : Option Int) (st app : Option String) (l o : Int)
    (hfy : ∀ y, fy = some y → ¬ y = 0) (hst : ∀ s, st = some s → ¬ s = "")
    (happ : ∀ a, app = some a → ¬ a = "") :
    where_clauses fy st app = specWhereClauses fy st app ∧
    ((fy = none ∧ st = none ∧ app = none) → (buildParams fy st app l o).whereClause = none) ∧
    (¬ (fy = none ∧ st = none ∧ app = none) →
      (buildParams fy st app l o).whereClause =
        some (String.intercalate " AND " (specWhereClauses fy st app))) := by
  have h1 : where_clauses fy st app = specWhereClauses fy st app := by
    rcases fy with _ | y <;> rcases st with _ | s <;> rcases app with _ | a <;>
      simp_all [where_clauses, specWhereClauses, Option.toList]
  refine ⟨h1, ?_, ?_⟩
  · rintro ⟨rfl, rfl, rfl⟩
    rfl
  · intro hne
    have hcl : specWhereClauses fy st app ≠ [] := by
      rcases fy with _ | y
      · rcases st with _ | s
        · rcases app with _ | a
          · exact absurd ⟨rfl, rfl, rfl⟩ hne
          · simp [specWhereClauses, Option.toList]
        · simp [specWhereClauses, Option.toList]
      · simp [specWhereClauses, Option.toList]
    simp only [buildParams, h1]
    rw [if_neg (by simpa [List.isEmpty_iff] using hcl)]

/-- C2 (witness): a concrete truthy filter set. -/
theorem where_clause_truthy_filters_witness :
    (buildParams (some 2024) (some "CA") (some "Library") 100 0).whereClause =
      some (String.intercalate " AND " (specWhereClauses (some 2024) (some "CA") (some "Library"))) :=
  (where_clause_truthy_filters (some 2024) (some "CA") (some "Library") 100 0
    (fun y h => by cases h; decide) (fun s h => by cases h; decide)
    (fun a h => by cases h; decide)).2.2 (by simp)

/-! ## Claim C6: error behavior of fetch_data -/

/-- C6 (counterexample): a non-2xx status that is not a 4xx/5xx error — here
304 — does not make `fetch_data` raise: `raise_for_status` only raises for
4xx/5xx, and the call returns an (empty) table. -/
theorem fetch_data_304_no_error :
    fetch_data (fun _ => HttpResult.response 304 []) none none none 1000 0 =
      Except.ok ⟨[], []⟩ := by
  decide

/-- C6 (amended): whenever the HTTP operation fails at network level or the
response status is 4xx/5xx, `fetch_data` raises a RequestError carrying the
cause — it never returns a table in that case — and it issues exactly one
request, with no internal retry. -/
theorem fetch_data_error_cases (api : FetchParams → HttpResult) (fy : Option Int)
    (st app : Option String) (l o : Int)
    (h : api (buildParams fy st app l o) = HttpResult.netError ∨
      ∃ s b, api (buildParams fy st app l o) = HttpResult.response s b ∧ 400 ≤ s ∧ s < 600) :
    (∃ e, fetch_data api fy st app l o = Except.error e) ∧
    fetch_data_requests fy st app l o = [buildParams fy st app l o] := by
  refine ⟨?_, rfl⟩
  rcases h with hnet | ⟨s, b, hresp, hs1, hs2⟩
  · exact ⟨RequestError.connectionError, by simp [fetch_data, hnet]⟩
  · refine ⟨RequestError.httpError s, ?_⟩
    have hrs : raiseForStatus s = true := by
      unfold raiseForStatus
      rw [decide_eq_true hs1, decide_eq_true hs2]
      rfl
    simp [fetch_data, hresp, hrs]

/-- C6 (witness): a concrete 500 response. -/
theorem fetch_data_error_cases_witness :
    (∃ e, fetch_data (fun _ => HttpResult.response 500 []) none none none 1000 0 =
      Except.error e) ∧
    fetch_data_requests none none none 1000 0 = [buildParams none none none 1000 0] :=
  fetch_data_error_cases (fun _ => HttpResult.response 500 []) none none none 1000 0
    (Or.inr ⟨500, [], rfl, by decide, by decide⟩)

/-! ## Claims C8 and C10: save_data -/

/-- C8 (counterexample): "out.csv" names a writable location (the current
directory), yet `save_data` fails — `os.path.dirname` yields "" and
`os.makedirs("")` raises — so no file with the table's header is written. -/
theorem save_bare_filename_fails :
    save_data ⟨["col1"], [[Value.num 1], [Value.num 2], [Value.num 3]]⟩ "out.csv" =
      Except.error OsError.fileNotFound := by
  decide

/-- C8 (amended): for every table and every writable path with a non-empty
directory component, `save_data` creates that parent directory before
writing, and the written file's header row is exactly the table's column
names in column order, with no index column prepended. -/
theorem save_creates_dir_and_header (t : Table) (p : String) (h : ¬ pyDirname p = "") :
    save_data t p = Except.ok (pyDirname p, ⟨t.cols, t.rows⟩) := by
  unfold save_data os_makedirs
  rw [if_neg h]
  rfl

/-- C8 (witness): a concrete nested path. -/
theorem save_creates_dir_and_header_witness :
    save_data ⟨["a", "b"], [[Value.num 1, Value.str "x"]]⟩ "data/raw/out.csv" =
      Except.ok (pyDirname "data/raw/out.csv",
        ⟨["a", "b"], [[Value.num 1, Value.str "x"]]⟩) :=
  save_creates_dir_and_header ⟨["a", "b"], [[Value.num 1, Value.str "x"]]⟩ "data/raw/out.csv"
    (by decide)

/-- C10 (confirmed): for every path containing no slash (a bare filename),
`os.path.dirname` returns the empty string, `os.makedirs("")` raises, and
`save_data` propagates the error having written nothing. -/
theorem save_no_dir_component_raises (t : Table) (p : String)
    (h : ∀ c ∈ p.toList, ¬ c = '/') :
    pyDirname p = "" ∧ save_data t p = Except.error OsError.fileNotFound := by
  have hdir : pyDirname p = "" := by
    have hdrop : (p.toList.reverse).dropWhile (fun c => decide (c ≠ '/')) = [] := by
      rw [List.dropWhile_eq_nil_iff]
      intro x hx
      exact decide_eq_true (h x (List.mem_reverse.mp hx))
    unfold pyDirname
    simp only [hdrop]
    rfl
  refine ⟨hdir, ?_⟩
  unfold save_data os_makedirs
  rw [hdir]
  rfl

/-- C10 (witness): the bare filename "out.csv". -/
theorem save_no_dir_component_raises_witness :
    pyDirname "out.csv" = "" ∧
    save_data ⟨[], []⟩ "out.csv" = Except.error OsError.fileNotFound :=
  save_no_dir_component_raises ⟨[], []⟩ "out.csv" (by decide)

/-! ## Column-update lemmas for the summarize frame property -/

theorem loop_step_error {api : FetchParams → HttpResult} {y : Int} {st app : Option String}
    {b off : Int} {e : RequestError} (fuel : Nat)
    (hfd : fetch_data api (some y) st app b off = Except.error e) :
    fetchYearLoop api y st app b (fuel + 1) off = ([off], Except.error e) := by
  simp [fetchYearLoop, hfd]

theorem loop_step_ok_empty {api : FetchParams → HttpResult} {y : Int} {st app : Option String}
    {b off : Int} {df : Table} (fuel : Nat)
    (hfd : fetch_data api (some y) st app b off = Except.ok df) (hemp : df.isEmptyDf = true) :
    fetchYearLoop api y st app b (fuel + 1) off = ([off], Except.ok []) := by
  simp [fetchYearLoop, hfd, hemp]

theorem loop_step_ok_short {api : FetchParams → HttpResult} {y : Int} {st app : Option String}
    {b off : Int} {df : Table} (fuel : Nat)
    (hfd : fetch_data api (some y) st app b off = Except.ok df) (hemp : df.isEmptyDf = false)
    (hlt : (df.rows.length : Int) < b) :
    fetchYearLoop api y st app b (fuel + 1) off = ([off], Except.ok [df]) := by
  simp [fetchYearLoop, hfd, hemp, hlt]

theorem loop_step_ok_full_error {api : FetchParams → HttpResult} {y : Int}
    {st app : Option String} {b off : Int} {df : Table} {offs : List Int} {e : RequestError}
    (fuel : Nat)
    (hfd : fetch_data api (some y) st app b off = Except.ok df) (hemp : df.isEmptyDf = false)
    (hge : ¬ (df.rows.length : Int) < b)
    (hrec : fetchYearLoop api y st app b fuel (off + b) = (offs, Except.error e)) :
    fetchYearLoop api y st app b (fuel + 1) off = (off :: offs, Except.error e) := by
  simp [fetchYearLoop, hfd, hemp, hge, hrec]

theorem loop_step_ok_full_ok {api : FetchParams → HttpResult} {y : Int}
    {st app : Option String} {b off : Int} {df : Table} {offs : List Int} {rest : List Table}
    (fuel : Nat)
    (hfd : fetch_data api (some y) st app b off = Except.ok df) (hemp : df.isEmptyDf = false)
    (hge : ¬ (df.rows.length : Int) < b)
    (hrec : fetchYearLoop api y st app b fuel (off + b) = (offs, Except.ok rest)) :
    fetchYearLoop api y st app b (fuel + 1) off = (off :: offs, Except.ok (df :: rest)) := by
  simp [fetchYearLoop, hfd, hemp, hge, hrec]

theorem cons_shift_range (off b : Int) (k : Nat) :
    off :: (List.range k).map (fun i : Nat => (off + b) + (i : Int) * b) =
      (List.range (k + 1)).map (fun i : Nat => off + (i : Int) * b) := by
  rw [List.range_succ_eq_map]
  simp only [List.map_cons, List.map_map]
  refine congrArg₂ List.cons ?_ ?_
  · push_cast
    ring
  · apply List.map_congr_left
    intro i _
    simp only [Function.comp_apply]
    push_cast
    ring

theorem loop_offsets_shape (api : FetchParams → HttpResult) (y : Int)
    (st app : Option String) (b : Int) :
    ∀ fuel off, ∃ k,
      (fetchYearLoop api y st app b fuel off).1 =
        (List.range k).map (fun i : Nat => off + (i : Int) * b) := by
  intro fuel
  induction fuel with
  | zero => intro off; exact ⟨0, by simp [fetchYearLoop]⟩
  | succ fuel ih =>
    intro off
    cases hfd : fetch_data api (some y) st app b off with
    | error e =>
      refine ⟨1, ?_⟩
      rw [loop_step_error fuel hfd]
      rw [show List.range 1 = [0] from rfl]
      simp
    | ok df =>
      by_cases hemp : df.isEmptyDf = true
      · refine ⟨1, ?_⟩
        rw [loop_step_ok_empty fuel hfd hemp]
        rw [show List.range 1 = [0] from rfl]
        simp
      · have hemp2 : df.isEmptyDf = false := by revert hemp; cases df.isEmptyDf <;> simp
        by_cases hlt : (df.rows.length : Int) < b
        · refine ⟨1, ?_⟩
          rw [loop_step_ok_short fuel hfd hemp2 hlt]
          rw [show List.range 1 = [0] from rfl]
          simp
        · obtain ⟨k, hk⟩ := ih (off + b)
          rcases hrec : fetchYearLoop api y st app b fuel (off + b) with ⟨offs, res⟩
          have hoffs : offs = (List.range k).map (fun i : Nat => (off + b) + (i : Int) * b) := by
            rw [hrec] at hk
            exact hk
          cases res with
          | error e =>
            refine ⟨k + 1, ?_⟩
            rw [loop_step_ok_full_error fuel hfd hemp2 hlt hrec]
            rw [hoffs, cons_shift_range]
          | ok rest =>
            refine ⟨k + 1, ?_⟩
            rw [loop_step_ok_full_ok fuel hfd hemp2 hlt hrec]
            rw [hoffs, cons_shift_range]

theorem loop_nonfinal (api : FetchParams → HttpResult) (y : Int)
    (st app : Option String) (b : Int) :
    ∀ fuel off i, i + 1 < (fetchYearLoop api y st app b fuel off).1.length →
      ∃ df, fetch_data api (some y) st app b (off + (i : Int) * b) = Except.ok df ∧
        df.isEmptyDf = false ∧ b ≤ (df.rows.length : Int) := by
  intro fuel
  induction fuel with
  | zero => intro off i h; simp [fetchYearLoop] at h
  | succ fuel ih =>
    intro off i h
    cases hfd : fetch_data api (some y) st app b off with
    | error e => rw [loop_step_error fuel hfd] at h; simp at h
    | ok df =>
      by_cases hemp : df.isEmptyDf = true
      · rw [loop_step_ok_empty fuel hfd hemp] at h; simp at h
      · have hemp2 : df.isEmptyDf = false := by revert hemp; cases df.isEmptyDf <;> simp
        by_cases hlt : (df.rows.length : Int) < b
        · rw [loop_step_ok_short fuel hfd hemp2 hlt] at h; simp at h
        · rcases hrec : fetchYearLoop api y st app b fuel (off + b) with ⟨offs, res⟩
          have hlen : i + 1 < offs.length + 1 := by
            cases res with
            | error e =>
              rw [loop_step_ok_full_error fuel hfd hemp2 hlt hrec] at h
              simpa using h
            | ok rest =>
              rw [loop_step_ok_full_ok fuel hfd hemp2 hlt hrec] at h
              simpa using h
          cases i with
          | zero =>
            refine ⟨df, ?_, hemp2, not_lt.mp hlt⟩
            simpa using hfd
          | succ j =>
            have hj : j + 1 < (fetchYearLoop api y st app b fuel (off + b)).1.length := by
              rw [hrec]
              exact Nat.lt_of_succ_lt_succ hlen
            obtain ⟨df2, hfd2, he2, hge2⟩ := ih (off + b) j hj
            refine ⟨df2, ?_, he2, hge2⟩
            have harith : off + ((j + 1 : Nat) : Int) * b = (off + b) + (j : Nat) * b := by
              push_cast
              ring
            rw [harith]
            exact hfd2

/-! ## Claim C3: pagination offsets and the stop condition -/

/-- C3 (confirmed): for every partition year and positive page size, the
loop issues requests at offsets 0, b, 2b, …; a request is followed by
another only when its response was a successful, non-empty page of at least
`batch_size` records (so the loop stops at the first short, empty or failed
response); and a request's offset never exceeds the end of the previously
fetched page. -/
theorem yearRequestOffsets_get (api : FetchParams → HttpResult) (year : Int)
    (st app : Option String) (b : Int) (fuel : Nat) :
    ∀ i (h : i < (yearRequestOffsets api year st app b fuel).length),
      (yearRequestOffsets api year st app b fuel).get ⟨i, h⟩ = (i : Int) * b := by
  obtain ⟨k, hk⟩ := loop_offsets_shape api year st app b fuel 0
  have hoffs : yearRequestOffsets api year st app b fuel =
      (List.range k).map (fun i : Nat => (i : Int) * b) := by
    unfold yearRequestOffsets
    rw [hk]
    apply List.map_congr_left
    intro i _
    ring
  intro i h
  rw [List.get_of_eq hoffs ⟨i, h⟩]
  simp

theorem pagination_offsets (api : FetchParams → HttpResult) (year : Int)
    (st app : Option String) (b : Int) (fuel : Nat) (hb : 0 < b) :
    paginationOk api year st app b fuel := by
  have hget := yearRequestOffsets_get api year st app b fuel
  have hnonf : ∀ i, i + 1 < (yearRequestOffsets api year st app b fuel).length →
      ∃ df, fetch_data api (some year) st app b ((i : Int) * b) = Except.ok df ∧
        df.isEmptyDf = false ∧ b ≤ (df.rows.length : Int) := by
    intro i h
    have h2 := loop_nonfinal api year st app b fuel 0 i h
    simpa using h2
  refine ⟨hget, hnonf, ?_⟩
  intro i h h2 df hfd
  obtain ⟨df2, hfd2, _, hge⟩ := hnonf i h
  rw [hget i h2] at hfd
  have hdf : df2 = df := Except.ok.inj (hfd2.symm.trans hfd)
  subst hdf
  rw [hget (i + 1) h, hget i h2]
  push_cast
  linarith

/-- C3 (witness): a concrete two-page run with page size 2. -/
theorem pagination_offsets_witness :
    (0 : Int) < 2 ∧ paginationOk wApi 2020 none none 2 5 :=
  ⟨by decide, pagination_offsets wApi 2020 none none 2 5 (by decide)⟩

/-! ## Claim C5: a failed page aborts the whole collection -/

theorem fetch_data_fail_iff (api : FetchParams → HttpResult) (fy : Option Int)
    (st app : Option String) (l o : Int) :
    (∃ e, fetch_data api fy st app l o = Except.error e) ↔
      isFailB (api (buildParams fy st app l o)) = true := by
  cases hr : api (buildParams fy st app l o) with
  | netError => simp [fetch_data, hr, isFailB]
  | response s body =>
    by_cases hs : raiseForStatus s = true
    · simp [fetch_data, hr, isFailB, hs]
    · have hs2 : raiseForStatus s = false := by revert hs; cases raiseForStatus s <;> simp
      simp [fetch_data, hr, isFailB, hs2]

theorem loop_fail (api : FetchParams → HttpResult) (y : Int) (st app : Option String)
    (b : Int) :
    ∀ fuel off,
      (∃ o ∈ (fetchYearLoop api y st app b fuel off).1,
        isFailB (api (buildParams (some y) st app b o)) = true) →
      ∃ e, (fetchYearLoop api y st app b fuel off).2 = Except.error e := by
  intro fuel
  induction fuel with
  | zero => intro off h; simp [fetchYearLoop] at h
  | succ fuel ih =>
    intro off h
    cases hfd : fetch_data api (some y) st app b off with
    | error e => rw [loop_step_error fuel hfd]; exact ⟨e, rfl⟩
    | ok df =>
      have hok : ¬ isFailB (api (buildParams (some y) st app b off)) = true := by
        intro hf
        obtain ⟨e, he⟩ := (fetch_data_fail_iff api (some y) st app b off).mpr hf
        rw [hfd] at he
        exact Except.noConfusion he
      by_cases hemp : df.isEmptyDf = true
      · rw [loop_step_ok_empty fuel hfd hemp] at h
        obtain ⟨o, ho, hfail⟩ := h
        simp at ho
        subst ho
        exact absurd hfail hok
      · have hemp2 : df.isEmptyDf = false := by revert hemp; cases df.isEmptyDf <;> simp
        by_cases hlt : (df.rows.length : Int) < b
        · rw [loop_step_ok_short fuel hfd hemp2 hlt] at h
          obtain ⟨o, ho, hfail⟩ := h
          simp at ho
          subst ho
          exact absurd hfail hok
        · rcases hrec : fetchYearLoop api y st app b fuel (off + b) with ⟨offs, res⟩
          cases res with
          | error e =>
            rw [loop_step_ok_full_error fuel hfd hemp2 hlt hrec]
            exact ⟨e, rfl⟩
          | ok rest =>
            rw [loop_step_ok_full_ok fuel hfd hemp2 hlt hrec] at h
            obtain ⟨o, ho, hfail⟩ := h
            simp only [List.mem_cons] at ho
            rcases ho with rfl | ho
            · exact absurd hfail hok
            · have hmem : ∃ o2 ∈ (fetchYearLoop api y st app b fuel (off + b)).1,
                  isFailB (api (buildParams (some y) st app b o2)) = true := by
                refine ⟨o, ?_, hfail⟩
                rw [hrec]
                exact ho
              obtain ⟨e, he⟩ := ih (off + b) hmem
              rw [hrec] at he
              simp at he

theorem run_fail (api : FetchParams → HttpResult) (st app : Option String) (b : Int)
    (fuel : Nat) :
    ∀ ys,
      (∃ yo ∈ (runYears api st app b fuel ys).1,
        isFailB (api (reqParams st app b yo)) = true) →
      ∃ e, (runYears api st app b fuel ys).2 = Except.error e := by
  intro ys
  induction ys with
  | nil => intro h; simp [runYears] at h
  | cons y ys ih =>
    intro h
    rcases hloop : fetchYearLoop api y st app b fuel 0 with ⟨offs, res⟩
    cases res with
    | error e =>
      exact ⟨e, by simp [runYears, hloop]⟩
    | ok tabs =>
      rcases hrec : runYears api st app b fuel ys with ⟨reqs, res2⟩
      cases res2 with
      | error e =>
        exact ⟨e, by simp [runYears, hloop, hrec]⟩
      | ok tabs2 =>
        rw [show (runYears api st app b fuel (y :: ys)).1 =
            offs.map (fun o => (y, o)) ++ reqs from by simp [runYears, hloop, hrec]] at h
        obtain ⟨yo, hyo, hfail⟩ := h
        rw [List.mem_append] at hyo
        rcases hyo with hyo | hyo
        · obtain ⟨o, ho, rfl⟩ := List.mem_map.mp hyo
          have hmem : ∃ o2 ∈ (fetchYearLoop api y st app b fuel 0).1,
              isFailB (api (buildParams (some y) st app b o2)) = true := by
            refine ⟨o, ?_, ?_⟩
            · rw [hloop]
              exact ho
            · simpa [reqParams] using hfail
          obtain ⟨e, he⟩ := loop_fail api y st app b fuel 0 hmem
          rw [hloop] at he
          simp at he
        · have hmem : ∃ yo2 ∈ (runYears api st app b fuel ys).1,
              isFailB (api (reqParams st app b yo2)) = true := by
            refine ⟨yo, ?_, hfail⟩
            rw [hrec]
            exact hyo
          obtain ⟨e, he⟩ := ih hmem
          rw [hrec] at he
          simp at he

/-- C5 (confirmed): when any issued page request fails (network failure or
4xx/5xx status), `fetch_all_years` propagates the error to the caller: its
result is the raised error and no table — in particular no partial
concatenation of earlier pages or partitions — is returned. -/
theorem fetch_all_error_propagates (api : FetchParams → HttpResult) (sy ey : Int)
    (st app : Option String) (b : Int) (fuel : Nat)
    (h : ∃ yo ∈ (fetch_all_years api sy ey st app b fuel).1,
      isFailB (api (reqParams st app b yo)) = true) :
    ∃ e, (fetch_all_years api sy ey st app b fuel).2 = Except.error e := by
  rcases hrun : runYears api st app b fuel (pyRange sy (ey + 1)) with ⟨reqs, res⟩
  have h1 : (fetch_all_years api sy ey st app b fuel).1 = reqs := by
    unfold fetch_all_years
    rw [hrun]
    cases res <;> rfl
  rw [h1] at h
  have h2 : ∃ yo ∈ (runYears api st app b fuel (pyRange sy (ey + 1))).1,
      isFailB (api (reqParams st app b yo)) = true := by
    rw [hrun]
    exact h
  obtain ⟨e, he⟩ := run_fail api st app b fuel _ h2
  rw [hrun] at he
  cases res with
  | error e2 =>
    refine ⟨e2, ?_⟩
    unfold fetch_all_years
    rw [hrun]
  | ok tabs => simp at he

/-- C5 (witness): a run whose second page request returns a 500 error. -/
theorem fetch_all_error_propagates_witness :
    ∃ e, (fetch_all_years wApiFail 2020 2020 none none 2 5).2 = Except.error e :=
  fetch_all_error_propagates wApiFail 2020 2020 none none 2 5 (by decide)


/-! ## Record-preservation lemmas for the order invariant -/

theorem fetch_data_ok_inv (api : FetchParams → HttpResult) (fy : Option Int)
    (st app : Option String) (l o : Int) (df : Table)
    (h : fetch_data api fy st app l o = Except.ok df) :
    ∃ s body, api (buildParams fy st app l o) = HttpResult.response s body ∧
      raiseForStatus s = false ∧ df = mkDataFrame body ∧
      bodyOf (api (buildParams fy st app l o)) = body := by
  cases hr : api (buildParams fy st app l o) with
  | netError => simp [fetch_data, hr] at h
  | response s body =>
    simp only [fetch_data, hr] at h
    by_cases hs : raiseForStatus s = true
    · rw [if_pos hs] at h
      exact absurd h (by simp)
    · rw [if_neg hs] at h
      have hs2 : raiseForStatus s = false := by revert hs; cases raiseForStatus s <;> simp
      exact ⟨s, body, rfl, hs2, (Except.ok.inj h).symm, rfl⟩

theorem colIdx_mem (cols : List String) (c : String) (j : Nat)
    (h : colIdx cols c = some j) : c ∈ cols := by
  induction cols generalizing j with
  | nil => simp [colIdx] at h
  | cons c0 rest ih =>
    by_cases hc : c0 = c
    · exact List.mem_cons.mpr (Or.inl hc.symm)
    · simp only [colIdx, if_neg hc] at h
      cases hj : colIdx rest c with
      | none => rw [hj] at h; exact Option.noConfusion h
      | some j2 => exact List.mem_cons.mpr (Or.inr (ih j2 hj))

theorem colIdx_isSome_of_mem (cols : List String) (c : String) (h : c ∈ cols) :
    (colIdx cols c).isSome = true := by
  induction cols with
  | nil => simp at h
  | cons c0 rest ih =>
    by_cases hc : c0 = c
    · simp [colIdx, hc]
    · rcases List.mem_cons.mp h with he | hm
      · exact absurd he.symm hc
      · simp only [colIdx, if_neg hc]
        cases hj : colIdx rest c with
        | none => rw [hj] at ih; simp at ih; exact absurd hm ih
        | some j => rfl

theorem rowLookup_null_of_not_mem (r : Row) (c : String) (h : ¬ c ∈ r.map Prod.fst) :
    rowLookup r c = Value.null := by
  induction r with
  | nil => rfl
  | cons p rest ih =>
    obtain ⟨k0, v⟩ := p
    simp only [List.map_cons, List.mem_cons] at h
    push_neg at h
    unfold rowLookup
    rw [if_neg (fun he => h.1 he.symm)]
    exact ih h.2

theorem addKeys_mem_left (ks : List String) : ∀ acc k, k ∈ acc → k ∈ addKeys acc ks := by
  induction ks with
  | nil => intro acc k h; exact h
  | cons k0 ks ih =>
    intro acc k h
    unfold addKeys
    by_cases h0 : k0 ∈ acc
    · rw [if_pos h0]
      exact ih acc k h
    · rw [if_neg h0]
      exact ih (acc ++ [k0]) k (List.mem_append.mpr (Or.inl h))

theorem addKeys_mem_right (ks : List String) : ∀ acc k, k ∈ ks → k ∈ addKeys acc ks := by
  induction ks with
  | nil => intro acc k h; simp at h
  | cons k0 ks ih =>
    intro acc k h
    unfold addKeys
    rcases List.mem_cons.mp h with rfl | hm
    · by_cases h0 : k ∈ acc
      · rw [if_pos h0]
        exact addKeys_mem_left ks acc k h0
      · rw [if_neg h0]
        exact addKeys_mem_left ks (acc ++ [k]) k (by simp)
    · by_cases h0 : k0 ∈ acc
      · rw [if_pos h0]
        exact ih acc k hm
      · rw [if_neg h0]
        exact ih (acc ++ [k0]) k hm

theorem foldl_addKeys_mem_acc {β : Type} (g : β → List String) (l : List β) :
    ∀ acc k, k ∈ acc → k ∈ l.foldl (fun acc x => addKeys acc (g x)) acc := by
  induction l with
  | nil => intro acc k h; exact h
  | cons x xs ih =>
    intro acc k h
    simp only [List.foldl_cons]
    exact ih (addKeys acc (g x)) k (addKeys_mem_left (g x) acc k h)

theorem foldl_addKeys_mem_el {β : Type} (g : β → List String) (l : List β) :
    ∀ acc k x, x ∈ l → k ∈ g x → k ∈ l.foldl (fun acc x => addKeys acc (g x)) acc := by
  induction l with
  | nil => intro acc k x h; simp at h
  | cons x0 xs ih =>
    intro acc k x hx hk
    simp only [List.foldl_cons]
    rcases List.mem_cons.mp hx with rfl | hm
    · exact foldl_addKeys_mem_acc g xs _ k (addKeys_mem_right (g x) acc k hk)
    · exact ih _ k x hm hk

theorem unionKeys_mem_of (data : List Row) (r : Row) (c : String) (hr : r ∈ data)
    (hc : c ∈ r.map Prod.fst) : c ∈ unionKeys data := by
  unfold unionKeys
  exact foldl_addKeys_mem_el (fun r2 => r2.map Prod.fst) data [] c r hr hc

theorem concatCols_mem_of (ts : List Table) (t : Table) (c : String) (ht : t ∈ ts)
    (hc : c ∈ t.cols) : c ∈ ts.foldl (fun acc t2 => addKeys acc t2.cols) [] :=
  foldl_addKeys_mem_el (fun t2 => t2.cols) ts [] c t ht hc

theorem rowVal_map (cols : List String) (f : String → Value) (c : String) :
    rowVal cols (cols.map f) c =
      match colIdx cols c with
      | some _ => f c
      | none => Value.null := by
  induction cols with
  | nil => rfl
  | cons c0 rest ih =>
    by_cases hc : c0 = c
    · subst hc
      simp [rowVal, colIdx]
    · have hcol : colIdx (c0 :: rest) c = (colIdx rest c).map (fun x => x + 1) := by
        simp only [colIdx, if_neg hc]
      unfold rowVal
      rw [hcol]
      cases hj : colIdx rest c with
      | none => rfl
      | some j =>
        have ih2 := ih
        unfold rowVal at ih2
        rw [hj] at ih2
        show ((c0 :: rest).map f).getD (j + 1) Value.null = f c
        rw [List.map_cons, List.getD_cons_succ]
        exact ih2

theorem rowVal_nil (cols : List String) (c : String) : rowVal cols [] c = Value.null := by
  unfold rowVal
  cases h : colIdx cols c with
  | none => rfl
  | some j => simp [List.getD_eq_getElem?_getD]

theorem mkDataFrame_not_empty (data : List Row) (hne : data ≠ [])
    (hrec : ∀ r ∈ data, r ≠ []) : (mkDataFrame data).isEmptyDf = false := by
  have hrows : (mkDataFrame data).rows ≠ [] := by
    intro h0
    exact hne (List.map_eq_nil_iff.mp h0)
  have hcols : (mkDataFrame data).cols ≠ [] := by
    cases data with
    | nil => exact absurd rfl hne
    | cons r0 rest =>
      intro h0
      have hr0ne : r0 ≠ [] := hrec r0 (List.mem_cons_self r0 rest)
      obtain ⟨p, r2, hr0⟩ : ∃ p r2, r0 = p :: r2 := by
        cases r0 with
        | nil => exact absurd rfl hr0ne
        | cons p r2 => exact ⟨p, r2, rfl⟩
      have hk : p.1 ∈ r0.map Prod.fst := by rw [hr0]; simp
      have hmem : p.1 ∈ unionKeys (r0 :: rest) :=
        unionKeys_mem_of (r0 :: rest) r0 p.1 (List.mem_cons_self r0 rest) hk
      rw [show (mkDataFrame (r0 :: rest)).cols = unionKeys (r0 :: rest) from rfl] at h0
      rw [h0] at hmem
      simp at hmem
  simp [Table.isEmptyDf, List.isEmpty_iff, hrows, hcols]

theorem mkDataFrame_rowFuns (data : List Row) :
    rowFuns (mkDataFrame data) = recFuns data := by
  show (data.map (fun r => (unionKeys data).map (fun c => rowLookup r c))).map
      (fun r => fun c => rowVal (unionKeys data) r c) =
    data.map (fun r => fun c => rowLookup r c)
  rw [List.map_map]
  apply List.map_congr_left
  intro r hr
  funext c
  show rowVal (unionKeys data) ((unionKeys data).map (fun c2 => rowLookup r c2)) c =
    rowLookup r c
  rw [rowVal_map]
  cases hc : colIdx (unionKeys data) c with
  | some j => rfl
  | none =>
    have hnm : ¬ c ∈ r.map Prod.fst := by
      intro hmem
      have h2 : c ∈ unionKeys data := unionKeys_mem_of data r c hr hmem
      have h3 := colIdx_isSome_of_mem (unionKeys data) c h2
      rw [hc] at h3
      simp at h3
    exact (rowLookup_null_of_not_mem r c hnm).symm

theorem concat_rowFuns (ts : List Table) :
    rowFuns (concatTables ts) = (ts.map rowFuns).flatten := by
  cases ts with
  | nil => rfl
  | cons t0 rest =>
    show (((t0 :: rest).map (fun t => t.rows.map (fun r =>
        ((t0 :: rest).foldl (fun acc t => addKeys acc t.cols) []).map
          (fun c => rowVal t.cols r c)))).flatten).map
        (fun r => fun c =>
          rowVal ((t0 :: rest).foldl (fun acc t => addKeys acc t.cols) []) r c) =
      ((t0 :: rest).map rowFuns).flatten
    rw [List.map_flatten, List.map_map]
    congr 1
    apply List.map_congr_left
    intro t ht
    simp only [Function.comp_apply]
    rw [List.map_map]
    show t.rows.map ((fun r => fun c =>
        rowVal ((t0 :: rest).foldl (fun acc t2 => addKeys acc t2.cols) []) r c) ∘
        (fun r => ((t0 :: rest).foldl (fun acc t2 => addKeys acc t2.cols) []).map
          (fun c => rowVal t.cols r c))) =
      t.rows.map (fun r => fun c => rowVal t.cols r c)
    apply List.map_congr_left
    intro r hr
    funext c
    show rowVal ((t0 :: rest).foldl (fun acc t2 => addKeys acc t2.cols) [])
        (((t0 :: rest).foldl (fun acc t2 => addKeys acc t2.cols) []).map
          (fun c2 => rowVal t.cols r c2)) c =
      rowVal t.cols r c
    rw [rowVal_map]
    cases hc : colIdx ((t0 :: rest).foldl (fun acc t2 => addKeys acc t2.cols) []) c with
    | some j => rfl
    | none =>
      have hnm : ¬ c ∈ t.cols := by
        intro hmem
        have h2 : c ∈ (t0 :: rest).foldl (fun acc t2 => addKeys acc t2.cols) [] :=
          concatCols_mem_of (t0 :: rest) t c ht hmem
        have h3 := colIdx_isSome_of_mem _ c h2
        rw [hc] at h3
        simp at h3
      have h4 : colIdx t.cols c = none := by
        cases h5 : colIdx t.cols c with
        | none => rfl
        | some j => exact absurd (colIdx_mem t.cols c j h5) hnm
      show Value.null = rowVal t.cols r c
      unfold rowVal
      rw [h4]

theorem recFuns_append (a c : List Row) : recFuns (a ++ c) = recFuns a ++ recFuns c :=
  List.map_append _ a c

theorem rowFuns_getD (t : Table) (i : Nat) :
    (rowFuns t).getD i (fun _ => Value.null) =
      fun c => rowVal t.cols (t.rows.getD i []) c := by
  by_cases h : i < t.rows.length
  · unfold rowFuns
    rw [List.getD_eq_getElem?_getD, List.getElem?_map, List.getElem?_eq_getElem h]
    rw [List.getD_eq_getElem?_getD, List.getElem?_eq_getElem h]
    rfl
  · have h2 : t.rows.length ≤ i := Nat.le_of_not_lt h
    unfold rowFuns
    rw [List.getD_eq_getElem?_getD,
      List.getElem?_eq_none (by simpa using h2)]
    rw [List.getD_eq_getElem?_getD, List.getElem?_eq_none h2]
    funext c
    exact (rowVal_nil t.cols c).symm

theorem recFuns_getD (rs : List Row) (i : Nat) :
    (recFuns rs).getD i (fun _ => Value.null) =
      fun c => rowLookup (rs.getD i []) c := by
  by_cases h : i < rs.length
  · unfold recFuns
    rw [List.getD_eq_getElem?_getD, List.getElem?_map, List.getElem?_eq_getElem h]
    rw [List.getD_eq_getElem?_getD, List.getElem?_eq_getElem h]
    rfl
  · have h2 : rs.length ≤ i := Nat.le_of_not_lt h
    unfold recFuns
    rw [List.getD_eq_getElem?_getD,
      List.getElem?_eq_none (by simpa using h2)]
    rw [List.getD_eq_getElem?_getD, List.getElem?_eq_none h2]
    funext c
    rfl

theorem loop_rowFuns (api : FetchParams → HttpResult) (y : Int) (st app : Option String)
    (b : Int)
    (hne : ∀ p s rows, api p = HttpResult.response s rows → ∀ r ∈ rows, r ≠ []) :
    ∀ fuel off offs tabs,
      fetchYearLoop api y st app b fuel off = (offs, Except.ok tabs) →
      (tabs.map rowFuns).flatten =
        recFuns (offs.flatMap (fun o => bodyOf (api (buildParams (some y) st app b o)))) := by
  intro fuel
  induction fuel with
  | zero =>
    intro off offs tabs h
    simp only [fetchYearLoop] at h
    injection h with h1 h2
    injection h2 with h2
    subst h1
    subst h2
    rfl
  | succ fuel ih =>
    intro off offs tabs h
    cases hfd : fetch_data api (some y) st app b off with
    | error e =>
      rw [loop_step_error fuel hfd] at h
      injection h with h1 h2
      simp at h2
    | ok df =>
      obtain ⟨s, body, hresp, hrs, hdf, hbody⟩ :=
        fetch_data_ok_inv api (some y) st app b off df hfd
      have hrecs : ∀ r ∈ body, r ≠ [] := hne _ s body hresp
      by_cases hbe : body = []
      · subst hbe
        have hemp : df.isEmptyDf = true := by rw [hdf]; rfl
        rw [loop_step_ok_empty fuel hfd hemp] at h
        injection h with h1 h2
        injection h2 with h2
        subst h1
        subst h2
        simp [recFuns, hbody]
      · have hemp : df.isEmptyDf = false := by
          rw [hdf]
          exact mkDataFrame_not_empty body hbe hrecs
        by_cases hlt : (df.rows.length : Int) < b
        · rw [loop_step_ok_short fuel hfd hemp hlt] at h
          injection h with h1 h2
          injection h2 with h2
          subst h1
          subst h2
          simp only [List.map_cons, List.map_nil, List.flatten_cons, List.flatten_nil,
            List.append_nil, List.flatMap_cons, List.flatMap_nil]
          rw [hdf, mkDataFrame_rowFuns, hbody]
        · rcases hrec : fetchYearLoop api y st app b fuel (off + b) with ⟨offs2, res⟩
          cases res with
          | error e =>
            rw [loop_step_ok_full_error fuel hfd hemp hlt hrec] at h
            injection h with h1 h2
            simp at h2
          | ok rest =>
            rw [loop_step_ok_full_ok fuel hfd hemp hlt hrec] at h
            injection h with h1 h2
            injection h2 with h2
            subst h1
            subst h2
            have ihrec := ih (off + b) offs2 rest hrec
            simp only [List.map_cons, List.flatten_cons, List.flatMap_cons]
            rw [recFuns_append, hdf, mkDataFrame_rowFuns, hbody, ihrec]

theorem run_rowFuns (api : FetchParams → HttpResult) (st app : Option String) (b : Int)
    (fuel : Nat)
    (hne : ∀ p s rows, api p = HttpResult.response s rows → ∀ r ∈ rows, r ≠ []) :
    ∀ ys reqs tabs, runYears api st app b fuel ys = (reqs, Except.ok tabs) →
      ((tabs.map rowFuns).flatten = recFuns (concatInOrder api st app b reqs) ∧
       reqs = ys.flatMap
         (fun y2 => (yearRequestOffsets api y2 st app b fuel).map (fun o => (y2, o)))) := by
  intro ys
  induction ys with
  | nil =>
    intro reqs tabs h
    simp only [runYears] at h
    injection h with h1 h2
    injection h2 with h2
    subst h1
    subst h2
    exact ⟨rfl, by simp⟩
  | cons y2 ys ih =>
    intro reqs tabs h
    rcases hloop : fetchYearLoop api y2 st app b fuel 0 with ⟨offs, res⟩
    cases res with
    | error e =>
      rw [show runYears api st app b fuel (y2 :: ys) =
          (offs.map (fun o => (y2, o)), Except.error e) from by
        simp [runYears, hloop]] at h
      injection h with h1 h2
      simp at h2
    | ok tabs1 =>
      rcases hrec : runYears api st app b fuel ys with ⟨reqs2, res2⟩
      cases res2 with
      | error e =>
        rw [show runYears api st app b fuel (y2 :: ys) =
            (offs.map (fun o => (y2, o)) ++ reqs2, Except.error e) from by
          simp [runYears, hloop, hrec]] at h
        injection h with h1 h2
        simp at h2
      | ok tabs2 =>
        rw [show runYears api st app b fuel (y2 :: ys) =
            (offs.map (fun o => (y2, o)) ++ reqs2, Except.ok (tabs1 ++ tabs2)) from by
          simp [runYears, hloop, hrec]] at h
        injection h with h1 h2
        injection h2 with h2
        subst h1
        subst h2
        have hloopR := loop_rowFuns api y2 st app b hne fuel 0 offs tabs1 hloop
        obtain ⟨ihR, ihreq⟩ := ih reqs2 tabs2 hrec
        have hco : concatInOrder api st app b (offs.map (fun o => (y2, o)) ++ reqs2) =
            concatInOrder api st app b (offs.map (fun o => (y2, o))) ++
              concatInOrder api st app b reqs2 := by
          unfold concatInOrder
          rw [List.flatMap_append]
        have hcoA : concatInOrder api st app b (offs.map (fun o => (y2, o))) =
            offs.flatMap (fun o => bodyOf (api (buildParams (some y2) st app b o))) := by
          unfold concatInOrder
          rw [List.flatMap_map]
          rfl
        refine ⟨?_, ?_⟩
        · rw [List.map_append, List.flatten_append, hco, hcoA, recFuns_append, hloopR, ihR]
        · rw [List.flatMap_cons]
          rw [show yearRequestOffsets api y2 st app b fuel = offs from by
            unfold yearRequestOffsets
            rw [hloop]]
          rw [ihreq]

theorem pyRange_eq (a c : Int) :
    pyRange a c = (List.range (c - a).toNat).map (fun i : Nat => a + (i : Int)) := by
  unfold pyRange
  rfl

/-! ## Claim C7: the collected table against the ordered page concatenation -/

/-- C7 (counterexample): a page whose sole record is the field-less object
`{}` yields a DataFrame with one row and zero columns, which `df.empty`
reports as empty; `fetch_all_years` breaks without appending it, so the
returned table has zero records although the API returned one — the record
is dropped, refuting "no record is deduplicated, dropped, or reordered" as
universally stated. -/
theorem fieldless_record_dropped :
    (fetch_all_years emptyRecApi 2020 2020 none none 1000 5) =
      ([(2020, 0)], Except.ok (⟨[], []⟩ : Table)) ∧
    (concatInOrder emptyRecApi none none 1000 [(2020, 0)]).length = 1 ∧
    (⟨[], []⟩ : Table).rows.length = 0 := by
  decide

/-- C7 (amended, proved): for every API run in which each returned record
carries at least one field, a successful `fetch_all_years` returns a table
with exactly one row per returned record, and row i read as a field
valuation (null for absent columns) equals record i of the concatenation of
the response bodies in issued-request order — varying per-page schemas are
aligned to the union column set by null-padding, with no record
deduplicated, dropped or reordered; the requests themselves run through
`range(start_year, end_year + 1)` in ascending-year order with offsets
0, b, 2b, … within each year. -/
theorem fetch_all_order_preserved (api : FetchParams → HttpResult) (sy ey : Int)
    (st app : Option String) (b : Int) (fuel : Nat) (reqs : List (Int × Int)) (t : Table)
    (hne : ∀ p s rows, api p = HttpResult.response s rows → ∀ r ∈ rows, r ≠ [])
    (hrun : fetch_all_years api sy ey st app b fuel = (reqs, Except.ok t)) :
    t.rows.length = (concatInOrder api st app b reqs).length ∧
    (∀ i c, rowVal t.cols (t.rows.getD i []) c =
      rowLookup ((concatInOrder api st app b reqs).getD i []) c) ∧
    reqs = (pyRange sy (ey + 1)).flatMap
      (fun y2 => (yearRequestOffsets api y2 st app b fuel).map (fun o => (y2, o))) ∧
    (∀ i (h : i < (pyRange sy (ey + 1)).length),
      (pyRange sy (ey + 1)).get ⟨i, h⟩ = sy + (i : Int)) ∧
    (∀ y2 i (h : i < (yearRequestOffsets api y2 st app b fuel).length),
      (yearRequestOffsets api y2 st app b fuel).get ⟨i, h⟩ = (i : Int) * b) := by
  rcases hry : runYears api st app b fuel (pyRange sy (ey + 1)) with ⟨reqs2, res⟩
  cases res with
  | error e =>
    rw [show fetch_all_years api sy ey st app b fuel = (reqs2, Except.error e) from by
      unfold fetch_all_years
      rw [hry]] at hrun
    injection hrun with h1 h2
    simp at h2
  | ok tabs =>
    rw [show fetch_all_years api sy ey st app b fuel =
        (reqs2, Except.ok (concatTables tabs)) from by
      unfold fetch_all_years
      rw [hry]] at hrun
    injection hrun with h1 h2
    injection h2 with h2
    subst h1
    subst h2
    obtain ⟨hR, hreq⟩ := run_rowFuns api st app b fuel hne (pyRange sy (ey + 1)) _ tabs hry
    have hmain : rowFuns (concatTables tabs) =
        recFuns (concatInOrder api st app b reqs2) := by
      rw [concat_rowFuns]
      exact hR
    refine ⟨?_, ?_, hreq, ?_, ?_⟩
    · have hlen := congrArg List.length hmain
      simpa [rowFuns, recFuns] using hlen
    · intro i c
      have hgd := congrArg (fun l => l.getD i (fun _ => Value.null)) hmain
      have hb1 := rowFuns_getD (concatTables tabs) i
      have hb2 := recFuns_getD (concatInOrder api st app b reqs2) i
      calc rowVal (concatTables tabs).cols ((concatTables tabs).rows.getD i []) c
          = ((rowFuns (concatTables tabs)).getD i (fun _ => Value.null)) c :=
            (congrFun hb1 c).symm
        _ = ((recFuns (concatInOrder api st app b reqs2)).getD i (fun _ => Value.null)) c :=
            congrFun hgd c
        _ = rowLookup ((concatInOrder api st app b reqs2).getD i []) c := congrFun hb2 c
    · intro i h
      rw [List.get_of_eq (pyRange_eq sy (ey + 1)) ⟨i, h⟩]
      simp
    · exact fun y2 => yearRequestOffsets_get api y2 st app b fuel

/-- C7 (witness): a run whose two pages carry different schemas (field "a"
then field "b"): the table has one row per record and agrees with the
concatenated records field-wise. -/
theorem fetch_all_order_preserved_witness :
    (⟨["a", "b"], [[Value.num 1, Value.null], [Value.num 2, Value.null],
        [Value.null, Value.num 3]]⟩ : Table).rows.length =
      (concatInOrder wApiMixed none none 2 [(2020, 0), (2020, 2)]).length ∧
    rowVal (⟨["a", "b"], [[Value.num 1, Value.null], [Value.num 2, Value.null],
        [Value.null, Value.num 3]]⟩ : Table).cols
        ((⟨["a", "b"], [[Value.num 1, Value.null], [Value.num 2, Value.null],
          [Value.null, Value.num 3]]⟩ : Table).rows.getD 2 []) "b" =
      rowLookup ((concatInOrder wApiMixed none none 2 [(2020, 0), (2020, 2)]).getD 2 []) "b" :=
  have hth := fetch_all_order_preserved wApiMixed 2020 2020 none none 2 5
    [(2020, 0), (2020, 2)]
    ⟨["a", "b"], [[Value.num 1, Value.null], [Value.num 2, Value.null],
      [Value.null, Value.num 3]]⟩
    (by
      intro p s rows he r hr
      rw [show wApiMixed p = HttpResult.response 200
          (if p.offset = 0 then [[("a", Value.num 1)], [("a", Value.num 2)]]
           else if p.offset = 2 then [[("b", Value.num 3)]] else []) from rfl] at he
      injection he with hs hb
      subst hb
      revert hr
      by_cases h0 : p.offset = 0
      · rw [if_pos h0]
        intro hr
        rcases List.mem_cons.mp hr with rfl | hr2
        · simp
        · rcases List.mem_cons.mp hr2 with rfl | hr3
          · simp
          · simp at hr3
      · rw [if_neg h0]
        by_cases h2c : p.offset = 2
        · rw [if_pos h2c]
          intro hr
          rcases List.mem_cons.mp hr with rfl | hr2
          · simp
          · simp at hr2
        · rw [if_neg h2c]
          intro hr
          simp at hr)
    (by decide)
  ⟨hth.1, hth.2.1 2 "b"⟩

end ERate
